import Mathlib

/-!
SoulSync — verification of the matching and token subsystems.

Shallow embedding of the SoulSync sources:

* `calculateCompatibilityScore`, `withScores`, the sort and the match-resolution
  flow come from `frontend/src/components/ImageUpload.tsx` (the `AIMatching`
  component, `fetchPotentialMatches`, `calculateCompatibilityScore`).
* `getUserFromToken`, the login-handler token issuance and the
  `/api/users/potential-matches` handler come from the Vercel serverless
  function (`api` entry file).
* The `AppContext` reducer is not part of the sources; the two actions the
  matching flow dispatches are modelled from the spec where noted.

`Math.random()` is made explicit: every call site that draws randomness takes
the drawn rational `r` (with `0 ≤ r < 1` in the real runtime) as an argument.
-/

namespace SoulSync

/-! ## Questionnaire data (frontend answer payloads) -/

/-- A typed answer value, as stored in the frontend `Record<string, any>`
answer maps: `scale` questions store integers, `multiple` questions store the
chosen option value, `boolean` questions store a boolean. -/
inductive Answer where
  | scale (value : Int)
  | choice (optionValue : String)
  | yesno (value : Bool)
deriving DecidableEq

/-- An answer set: mapping from question id to the typed answer. -/
abbrev AnswerSet := List (String × Answer)

/-- A questionnaire item as far as scoring is concerned: id and weight
(from the question bank seed data). -/
structure Question where
  id : String
  weight : Nat
deriving DecidableEq

/-! ## Compatibility scorer — `ImageUpload.tsx`, `calculateCompatibilityScore` -/

/-- Function `calculateCompatibilityScore` from `ImageUpload.tsx` lines 366–376:
```js
let score = 7.0;              // Base score
score += Math.random() * 3;   // randomness for demo purposes
return Math.min(10.0, Math.max(7.0, score));
```
The `Math.random()` draw is the explicit argument `r`. The function takes no
other input: it reads neither party's answers. -/
def calculateCompatibilityScore (r : ℚ) : ℚ :=
  min 10 (max 7 (7 + r * 3))

/-- The pair score the spec calls `score(answersA, answersB)`, as the code
computes it: `AIMatching` assigns each candidate
`calculateCompatibilityScore()` with a fresh random draw, ignoring both the
identity's answers and the candidate's answers. The two answer-set arguments
are therefore unused — that is the faithful embedding of the source, in which
`calculateCompatibilityScore` has no parameters at all. -/
def scorePair (_answersA _answersB : AnswerSet) (r : ℚ) : ℚ :=
  calculateCompatibilityScore r

/-- The expression `Math.round(x * 10) / 10` from the `compatibility:` field of the score
assignment in `AIMatching` (`Math.round` rounds half up, `⌊x + 1/2⌋`, exactly
as Lean's `round`). -/
def roundTenths (q : ℚ) : ℚ :=
  (round (q * 10) : ℚ) / 10

/-! ## Stable descending sort — `matchesWithScores.sort((a, b) => b.compatibility - a.compatibility)`

`Array.prototype.sort` is stable (ES2019); with the comparator above it
produces the list sorted descending by score with equal-score elements kept in
input order. `insertDesc`/`sortDesc` is that stable sort: an element is
inserted in front of the first element whose key is not larger, hence in front
of every equal-key element that came later in the input. -/

/-- Insert `x` into a descending-sorted list, before the first element whose
key is not larger than `x`'s. -/
def insertDesc {α β : Type} [LinearOrder β] (key : α → β) (x : α) :
    List α → List α
  | [] => [x]
  | y :: ys => if key x < key y then y :: insertDesc key x ys else x :: y :: ys

/-- Stable sort, descending by `key` — the JS
`sort((a, b) => key(b) - key(a))`. -/
def sortDesc {α β : Type} [LinearOrder β] (key : α → β) : List α → List α
  | [] => []
  | x :: xs => insertDesc key x (sortDesc key xs)

/-! ## Frontend matching flow — `AIMatching` in `ImageUpload.tsx` -/

/-- A candidate user as delivered by the backend to `AIMatching`
(only the fields the matching logic reads are kept: the id and the answers). -/
structure User where
  id : Nat
  answers : AnswerSet
deriving DecidableEq

/-- A candidate after the score assignment in `AIMatching`
(`{...user, compatibility: Math.round(calculateCompatibilityScore() * 10) / 10}`). -/
structure ScoredUser where
  id : Nat
  answers : AnswerSet
  compatibility : ℚ
deriving DecidableEq

/-- The score-assignment `map` in `AIMatching`: each candidate receives
`roundTenths (calculateCompatibilityScore r)` for its own fresh random draw
`r`; the draws are the explicit list `draws`, consumed positionally. -/
def withScores (pool : List User) (draws : List ℚ) : List ScoredUser :=
  pool.zipWith
    (fun u r => ⟨u.id, u.answers, roundTenths (calculateCompatibilityScore r)⟩)
    draws

/-- The ranking step of `AIMatching`:
`matchesWithScores.sort((a, b) => b.compatibility - a.compatibility)` —
`Array.prototype.sort` is stable, so this is `sortDesc` by the score. -/
def rankMatches (l : List ScoredUser) : List ScoredUser :=
  sortDesc (fun m => m.compatibility) l

/-- The question weight set `[3,2,5,5,4]` of the spec's scoring scenario. -/
def scenarioWeights : List Question :=
  [⟨"q1", 3⟩, ⟨"q2", 2⟩, ⟨"q3", 5⟩, ⟨"q4", 5⟩, ⟨"q5", 4⟩]

/-- The identity's answers in the spec's scoring scenario. -/
def scenarioAnswers : AnswerSet :=
  [("q1", .scale 1), ("q2", .choice "a"), ("q3", .yesno true),
   ("q4", .yesno true), ("q5", .scale 2)]

/-- The partner who matches exactly on both weight-5 questions (`q3`, `q4`)
and diverges on the rest. -/
def partnerHighWeight : AnswerSet :=
  [("q1", .scale 5), ("q2", .choice "b"), ("q3", .yesno true),
   ("q4", .yesno true), ("q5", .scale 9)]

/-- The partner who matches only the weight-3 (`q1`) and weight-2 (`q2`)
questions and diverges on both weight-5 questions. -/
def partnerLowWeight : AnswerSet :=
  [("q1", .scale 1), ("q2", .choice "a"), ("q3", .yesno false),
   ("q4", .yesno false), ("q5", .scale 9)]

/-- The slice of the `AppContext` state the matching flow reads and writes:
`hasPremium`, `dailyMatchCount`, `rejectedMatches`, `currentMatch`. -/
structure AppState where
  hasPremium : Bool
  dailyMatchCount : Nat
  rejectedMatches : List ScoredUser
  currentMatch : Option ScoredUser
deriving DecidableEq

/-- The two `AppContext` actions dispatched by `AIMatching`. -/
inductive AppAction where
  | setMatch (m : ScoredUser)
  | resetDailyMatches
deriving DecidableEq

/-- Modelled from the spec: the `AppContext` reducer is not among the source
files (only its dispatch sites are). Per the spec, `Resolved` "consumes the
quota slot permanently", so `SET_MATCH` records the match and increments
today's count; the exhausted-pool fallback "clear[s] the RejectionSet and
retr[ies] once", so `RESET_DAILY_MATCHES` clears the rejection set. -/
def appReducer (s : AppState) : AppAction → AppState
  | .setMatch m =>
      { s with currentMatch := some m, dailyMatchCount := s.dailyMatchCount + 1 }
  | .resetDailyMatches => { s with rejectedMatches := [] }

/-- The tier limit from `fetchPotentialMatches`
(`const matchLimit = state.hasPremium ? 10 : 2`). -/
def matchLimit (s : AppState) : Nat :=
  if s.hasPremium then 10 else 2

/-- Function `fetchPotentialMatches` from `ImageUpload.tsx` lines 330–363: the daily
quota guard (`state.dailyMatchCount >= matchLimit` → error, `null`) followed
by the backend fetch; an empty fetch result also yields `null`. `pool` is the
list the backend call returns. -/
def fetchPotentialMatches (s : AppState) (pool : List User) : Option (List User) :=
  if matchLimit s ≤ s.dailyMatchCount then none
  else if pool.length = 0 then none
  else some pool

/-- Outcome of one run of the `AIMatching` flow. -/
inductive MatchOutcome where
  | resolved (m : ScoredUser)
  | noMatch
deriving DecidableEq

/-- One run of the match-resolution flow in `AIMatching`
(`ImageUpload.tsx` lines 414–479): fetch (with quota guard), filter out
today's rejected ids, on an empty filtered pool dispatch
`RESET_DAILY_MATCHES` and retry over the unfiltered pool, score, sort
descending by compatibility, dispatch `SET_MATCH` on the top candidate. -/
def aiMatchingRun (s : AppState) (pool : List User) (draws : List ℚ) :
    AppState × MatchOutcome :=
  match fetchPotentialMatches s pool with
  | none => (s, .noMatch)
  | some potentialMatches =>
    let rejectedIds := s.rejectedMatches.map (fun m => m.id)
    let availableUsers :=
      potentialMatches.filter (fun u => ! rejectedIds.contains u.id)
    if availableUsers.length = 0 then
      let s1 := appReducer s .resetDailyMatches
      let sorted := rankMatches (withScores potentialMatches draws)
      match sorted.head? with
      | some topMatch => (appReducer s1 (.setMatch topMatch), .resolved topMatch)
      | none => (s1, .noMatch)
    else
      let sorted := rankMatches (withScores availableUsers draws)
      match sorted.head? with
      | some topMatch => (appReducer s (.setMatch topMatch), .resolved topMatch)
      | none => (s, .noMatch)

/-! ## Quota consumption as two separated steps

In the source the quota check is the read in `fetchPotentialMatches`
(`state.dailyMatchCount >= matchLimit`) while the consumption is the
`SET_MATCH` dispatch that happens only after the asynchronous fetch and the
scoring timeout — a read-then-write, not one atomic compare-and-increment.
The model below runs two such flows step-interleaved over a shared counter. -/

/-- Program counter of one quota-consuming flow: `start` (guard not yet
evaluated), `passed` (guard read said a slot remains, increment pending),
`denied` (guard read said the limit is reached), `finished` (incremented). -/
inductive FlowPhase where
  | start
  | passed
  | denied
  | finished
deriving DecidableEq

/-- One step of one flow against the shared counter: the guard read, or the
deferred increment. -/
def flowStep (limit count : Nat) : FlowPhase → Nat × FlowPhase
  | .start => if count < limit then (count, .passed) else (count, .denied)
  | .passed => (count + 1, .finished)
  | .denied => (count, .denied)
  | .finished => (count, .finished)

/-- Two concurrent quota-consuming flows over one shared per-identity
counter. -/
structure TwoFlows where
  count : Nat
  first : FlowPhase
  second : FlowPhase
deriving DecidableEq

/-- Scheduler step: `pick = false` advances the first flow, `pick = true` the
second. -/
def schedStep (limit : Nat) (s : TwoFlows) (pick : Bool) : TwoFlows :=
  if pick then
    let r := flowStep limit s.count s.second
    { s with count := r.1, second := r.2 }
  else
    let r := flowStep limit s.count s.first
    { s with count := r.1, first := r.2 }

/-- Run both flows under an explicit interleaving schedule. -/
def schedRun (limit : Nat) (s : TwoFlows) : List Bool → TwoFlows
  | [] => s
  | b :: bs => schedRun limit (schedStep limit s b) bs

/-- One serialized quota consumption: guard and increment with no
interleaving point between them. Returns the new count and whether the call
succeeded. -/
def consume (limit count : Nat) : Nat × Bool :=
  if count < limit then (count + 1, true) else (count, false)

/-- Runs `n` serialized `consume` calls; returns the final count and how many
succeeded. -/
def serialConsume (limit count : Nat) : Nat → Nat × Nat
  | 0 => (count, 0)
  | n + 1 =>
    let r := consume limit count
    let rest := serialConsume limit r.1 n
    (rest.1, rest.2 + if r.2 then 1 else 0)

/-! ## Backend — tokens and the potential-matches handler -/

/-- An identity record as the handlers read it
(the Prisma `user` `select`s restricted to the fields the logic uses). -/
structure DbUser where
  id : Nat
  isActive : Bool
  isVerified : Bool
  createdAt : Nat
deriving DecidableEq

/-- A signed JWT as issued by the login/register handlers: payload
`{ userId }`, issued-at, expiry, and the signature (standing for the HMAC
under the signing secret — a verifier holding `secret` accepts exactly the
tokens whose `sig` equals it). -/
structure AccessTok where
  userId : Nat
  iat : Nat
  exp : Nat
  sig : Nat
deriving DecidableEq

/-- The call `jwt.sign` with payload `userId` and the given expiry. -/
def jwtSign (secret uid iat expiry : Nat) : AccessTok :=
  ⟨uid, iat, expiry, secret⟩

/-- The check `jwt.verify(token, secret)` at clock time `now`: signature mismatch or
expiry both throw, collapsed to `none`. -/
def jwtVerify (secret now : Nat) (t : AccessTok) : Option Nat :=
  if t.sig = secret ∧ now < t.exp then some t.userId else none

/-- Seven days in seconds — the `7d` access-token TTL passed to `jwt.sign`. -/
def sevenDays : Nat := 7 * 24 * 60 * 60

/-- Thirty days in seconds — the `30d` refresh-token TTL passed to `jwt.sign`. -/
def thirtyDays : Nat := 30 * 24 * 60 * 60

/-- Token issuance from the login handler (serverless function lines
360–383): a fresh access token (`expiresIn: '7d'`, signed with
`JWT_SECRET`) and a fresh refresh token (`expiresIn: '30d'`, signed with the
refresh secret). -/
def issueTokens (secret refreshSecret now uid : Nat) : AccessTok × AccessTok :=
  (jwtSign secret uid now (now + sevenDays),
   jwtSign refreshSecret uid now (now + thirtyDays))

/-- The lookup `db.user.findUnique` by user id. -/
def findUnique (db : List DbUser) (uid : Nat) : Option DbUser :=
  db.find? (fun u => u.id == uid)

/-- Function `getUserFromToken` from the serverless function lines 64–90: requires a
`Bearer` authorization header, verifies the JWT, looks the decoded user id up
in the database, and returns the user only if it `isActive`. Every failure —
missing header, wrong scheme, bad signature, expiry, unknown id, inactive
account — returns `none` (the code returns `null` from a single `catch`). The
header is modelled parsed as scheme plus token. -/
def getUserFromToken (db : List DbUser) (secret now : Nat)
    (authHeader : Option (String × AccessTok)) : Option DbUser :=
  match authHeader with
  | none => none
  | some (scheme, tok) =>
    if scheme = "Bearer" then
      match jwtVerify secret now tok with
      | none => none
      | some uid =>
        match findUnique db uid with
        | some u => if u.isActive then some u else none
        | none => none
    else none

/-- The Prisma query of the `/api/users/potential-matches` handler
(serverless function lines 488–509): filter `isActive && isVerified`,
exclude the caller's id when one was resolved, order by `createdAt`
descending, `take: 20`. -/
def selectMatches (db : List DbUser) (currentUserId : Option Nat) : List DbUser :=
  (sortDesc (fun u => u.createdAt)
    (db.filter (fun u =>
      u.isActive && u.isVerified &&
      (match currentUserId with
       | some c => u.id != c
       | none => true)))).take 20

/-- Result of the potential-matches endpoint. `authFailed` is the
`Failed`/reauthenticate outcome the spec prescribes; the handler as written
never produces it. -/
inductive MatchesResult where
  | ok (pool : List DbUser)
  | authFailed
deriving DecidableEq

/-- The `/api/users/potential-matches` handler (serverless function lines
479–527): resolve the caller *opportunistically* (`let currentUserId = null;
... if (user) currentUserId = user.id`) and run the candidate query
regardless of whether token verification succeeded. -/
def potentialMatchesHandler (db : List DbUser) (secret now : Nat)
    (authHeader : Option (String × AccessTok)) : MatchesResult :=
  let currentUserId :=
    (getUserFromToken db secret now authHeader).map (fun u => u.id)
  .ok (selectMatches db currentUserId)

/-! ## Lemmas about the stable descending sort -/

theorem mem_insertDesc {α β : Type} [LinearOrder β] (key : α → β) (x a : α) :
    ∀ l : List α, a ∈ insertDesc key x l ↔ a = x ∨ a ∈ l
  | [] => by simp [insertDesc]
  | y :: ys => by
    simp only [insertDesc]
    split
    · simp only [List.mem_cons, mem_insertDesc key x a ys]
      tauto
    · simp [List.mem_cons]

theorem length_insertDesc {α β : Type} [LinearOrder β] (key : α → β) (x : α) :
    ∀ l : List α, (insertDesc key x l).length = l.length + 1
  | [] => rfl
  | y :: ys => by
    simp only [insertDesc]
    split
    · simp [length_insertDesc key x ys]
    · simp

theorem mem_sortDesc {α β : Type} [LinearOrder β] (key : α → β) (a : α) :
    ∀ l : List α, a ∈ sortDesc key l ↔ a ∈ l
  | [] => Iff.rfl
  | x :: xs => by
    simp only [sortDesc, mem_insertDesc, mem_sortDesc key a xs, List.mem_cons]

theorem length_sortDesc {α β : Type} [LinearOrder β] (key : α → β) :
    ∀ l : List α, (sortDesc key l).length = l.length
  | [] => rfl
  | x :: xs => by
    simp only [sortDesc, length_insertDesc, length_sortDesc key xs, List.length_cons]

theorem pairwise_insertDesc {α β : Type} [LinearOrder β] (key : α → β) (x : α) :
    ∀ l : List α, l.Pairwise (fun a b => key b ≤ key a) →
      (insertDesc key x l).Pairwise (fun a b => key b ≤ key a)
  | [], _ => List.pairwise_singleton _ x
  | y :: ys, h => by
    rcases List.pairwise_cons.mp h with ⟨hy, hys⟩
    simp only [insertDesc]
    split
    · rename_i hlt
      refine List.pairwise_cons.mpr ⟨?_, pairwise_insertDesc key x ys hys⟩
      intro b hb
      rcases (mem_insertDesc key x b ys).mp hb with rfl | hbys
      · exact le_of_lt hlt
      · exact hy b hbys
    · rename_i hge
      refine List.pairwise_cons.mpr ⟨?_, h⟩
      intro b hb
      rcases List.mem_cons.mp hb with rfl | hbys
      · exact le_of_not_lt hge
      · exact le_trans (hy b hbys) (le_of_not_lt hge)

theorem pairwise_sortDesc {α β : Type} [LinearOrder β] (key : α → β) :
    ∀ l : List α, (sortDesc key l).Pairwise (fun a b => key b ≤ key a)
  | [] => List.Pairwise.nil
  | x :: xs => pairwise_insertDesc key x _ (pairwise_sortDesc key xs)

theorem filter_insertDesc_of_eq {α β : Type} [LinearOrder β] (key : α → β)
    (x : α) (q : β) (hx : key x = q) :
    ∀ l : List α,
      (insertDesc key x l).filter (fun a => key a = q) =
        x :: l.filter (fun a => key a = q)
  | [] => by simp [insertDesc, hx]
  | y :: ys => by
    simp only [insertDesc]
    split
    · rename_i hlt
      have hyq : ¬ (key y = q) := by
        intro hyq
        rw [← hx] at hyq
        exact absurd hyq (ne_of_gt hlt)
      simp only [List.filter_cons, hyq, decide_eq_true_eq, if_neg hyq,
        decide_eq_false hyq, Bool.false_eq_true]
      simpa using filter_insertDesc_of_eq key x q hx ys
    · simp [List.filter_cons, hx]

theorem filter_insertDesc_of_ne {α β : Type} [LinearOrder β] (key : α → β)
    (x : α) (q : β) (hx : ¬ key x = q) :
    ∀ l : List α,
      (insertDesc key x l).filter (fun a => key a = q) =
        l.filter (fun a => key a = q)
  | [] => by simp [insertDesc, hx]
  | y :: ys => by
    simp only [insertDesc]
    split
    · simp only [List.filter_cons]
      rw [show ((insertDesc key x ys).filter (fun a => key a = q)) =
        ys.filter (fun a => key a = q) from filter_insertDesc_of_ne key x q hx ys]
    · simp [List.filter_cons, hx]

/-- Stability of `sortDesc`: the candidates holding any fixed key value appear
in the sorted output exactly in their input order. -/
theorem filter_sortDesc {α β : Type} [LinearOrder β] (key : α → β) (q : β) :
    ∀ l : List α,
      (sortDesc key l).filter (fun a => key a = q) =
        l.filter (fun a => key a = q)
  | [] => rfl
  | x :: xs => by
    by_cases hx : key x = q
    · rw [sortDesc, filter_insertDesc_of_eq key x q hx,
        filter_sortDesc key q xs]
      simp [List.filter_cons, hx]
    · rw [sortDesc, filter_insertDesc_of_ne key x q hx,
        filter_sortDesc key q xs]
      simp [List.filter_cons, hx]

theorem sortDesc_eq_nil_iff {α β : Type} [LinearOrder β] (key : α → β)
    (l : List α) : sortDesc key l = [] ↔ l = [] := by
  constructor
  · intro h
    have := length_sortDesc key l
    rw [h] at this
    exact List.length_eq_zero.mp this.symm
  · rintro rfl
    rfl

/-! ## Lemmas about the scorer -/

theorem calculateCompatibilityScore_le :
    ∀ r : ℚ, calculateCompatibilityScore r ≤ 10 := fun _ =>
  min_le_left 10 _

theorem le_calculateCompatibilityScore :
    ∀ r : ℚ, 7 ≤ calculateCompatibilityScore r := fun r =>
  le_min (by norm_num) (le_max_left 7 _)

theorem calculateCompatibilityScore_mono {r₁ r₂ : ℚ} (h : r₁ ≤ r₂) :
    calculateCompatibilityScore r₁ ≤ calculateCompatibilityScore r₂ := by
  unfold calculateCompatibilityScore
  have : (7 : ℚ) + r₁ * 3 ≤ 7 + r₂ * 3 := by linarith
  exact min_le_min le_rfl (max_le_max le_rfl this)

theorem roundTenths_bounds {q : ℚ} (h7 : 7 ≤ q) (h10 : q ≤ 10) :
    7 ≤ roundTenths q ∧ roundTenths q ≤ 10 := by
  unfold roundTenths
  have hlo : (70 : ℤ) ≤ round (q * 10) := by
    rw [round_eq]
    have : ((70 : ℤ) : ℚ) ≤ q * 10 + 1 / 2 := by push_cast; linarith
    calc (70 : ℤ) = ⌊((70 : ℤ) : ℚ)⌋ := (Int.floor_intCast 70).symm
    _ ≤ ⌊q * 10 + 1 / 2⌋ := Int.floor_le_floor this
  have hhi : round (q * 10) ≤ (100 : ℤ) := by
    rw [round_eq]
    have hle : q * 10 + 1 / 2 ≤ (201 / 2 : ℚ) := by linarith
    have h2 := Int.floor_le_floor hle
    have h3 : ⌊(201 / 2 : ℚ)⌋ = 100 := by norm_num
    omega
  constructor
  · have : ((70 : ℤ) : ℚ) ≤ (round (q * 10) : ℚ) := Int.cast_le.mpr hlo
    push_cast at this ⊢
    linarith
  · have : (round (q * 10) : ℚ) ≤ ((100 : ℤ) : ℚ) := Int.cast_le.mpr hhi
    push_cast at this ⊢
    linarith

/-- Every element of `withScores` comes from a pool member paired with one
random draw, carrying that member's id and answers and the clamped, rounded
score of its draw. -/
theorem mem_withScores :
    ∀ (pool : List User) (draws : List ℚ) (m : ScoredUser),
      m ∈ withScores pool draws →
        ∃ u ∈ pool, ∃ r : ℚ,
          m = ⟨u.id, u.answers, roundTenths (calculateCompatibilityScore r)⟩
  | [], _, m, hm => by simp [withScores] at hm
  | _ :: _, [], m, hm => by simp [withScores] at hm
  | u :: us, r :: rs, m, hm => by
    rcases List.mem_cons.mp hm with rfl | hm
    · exact ⟨u, List.mem_cons_self u us, r, rfl⟩
    · rcases mem_withScores us rs m hm with ⟨v, hv, r₂, hr₂⟩
      exact ⟨v, List.mem_cons_of_mem u hv, r₂, hr₂⟩

/-! ## Lemmas about the matching flow -/

theorem aiMatchingRun_hasPremium (s : AppState) (pool : List User)
    (draws : List ℚ) :
    (aiMatchingRun s pool draws).1.hasPremium = s.hasPremium := by
  unfold aiMatchingRun
  cases fetchPotentialMatches s pool with
  | none => rfl
  | some l =>
    dsimp only
    split
    · split <;> simp [appReducer]
    · split <;> simp [appReducer]

theorem aiMatchingRun_count (s : AppState) (pool : List User)
    (draws : List ℚ) :
    (aiMatchingRun s pool draws).1.dailyMatchCount = s.dailyMatchCount ∨
    ((aiMatchingRun s pool draws).1.dailyMatchCount = s.dailyMatchCount + 1 ∧
      s.dailyMatchCount < matchLimit s) := by
  unfold aiMatchingRun
  cases hf : fetchPotentialMatches s pool with
  | none => exact Or.inl rfl
  | some l =>
    have hlt : s.dailyMatchCount < matchLimit s := by
      by_contra hc
      push_neg at hc
      simp [fetchPotentialMatches, hc] at hf
    dsimp only
    split
    · split
      · exact Or.inr ⟨by simp [appReducer], hlt⟩
      · exact Or.inl (by simp [appReducer])
    · split
      · exact Or.inr ⟨by simp [appReducer], hlt⟩
      · exact Or.inl rfl

/-! ## Claim C1 — daily match limits per tier -/

/-- C1: the daily match limit is `2` for the free tier and `10` for premium;
a run that starts with today's count at or above the limit is denied — state
unchanged, no candidate produced — and a run that starts within the limit
ends within the limit, so the count never exceeds the tier limit. (The
`AppContext` reducer that holds the counter is modelled from the spec; the
guard and the limits are the code of `fetchPotentialMatches`.) -/
theorem daily_match_limit_enforced (s : AppState) (pool : List User)
    (draws : List ℚ) :
    (s.hasPremium = false → matchLimit s = 2) ∧
    (s.hasPremium = true → matchLimit s = 10) ∧
    (matchLimit s ≤ s.dailyMatchCount →
      aiMatchingRun s pool draws = (s, .noMatch)) ∧
    (s.dailyMatchCount ≤ matchLimit s →
      (aiMatchingRun s pool draws).1.dailyMatchCount ≤
        matchLimit (aiMatchingRun s pool draws).1) := by
  refine ⟨fun h => by simp [matchLimit, h], fun h => by simp [matchLimit, h],
    ?_, ?_⟩
  · intro hq
    simp [aiMatchingRun, fetchPotentialMatches, hq]
  · intro hinv
    have hprem := aiMatchingRun_hasPremium s pool draws
    have hlim : matchLimit (aiMatchingRun s pool draws).1 = matchLimit s := by
      simp [matchLimit, hprem]
    rw [hlim]
    rcases aiMatchingRun_count s pool draws with h | ⟨h, hlt⟩ <;> omega

/-- Witness for `daily_match_limit_enforced`: a free-tier identity with
today's count already at `2` is denied with no candidate. -/
theorem daily_match_limit_enforced_check :
    aiMatchingRun ⟨false, 2, [], none⟩ [⟨1, []⟩] [0] =
      (⟨false, 2, [], none⟩, .noMatch) ∧
    matchLimit ⟨false, 2, [], none⟩ = 2 :=
  ⟨(daily_match_limit_enforced ⟨false, 2, [], none⟩ [⟨1, []⟩] [0]).2.2.1
      (by decide),
   (daily_match_limit_enforced ⟨false, 2, [], none⟩ [⟨1, []⟩] [0]).1 rfl⟩

/-! ## Claim C2 — determinism and symmetry of the scorer -/

/-- C2, counterexample: the score is not a function of the two answer sets
and the question weights. Two runs of the scorer on the very same pair of
answer sets — the runs differing only in the `Math.random()` draw, `0` versus
`1/2` — return different values (`7` versus `17/2`). -/
theorem score_not_function_of_answers :
    scorePair scenarioAnswers partnerHighWeight 0 ≠
      scorePair scenarioAnswers partnerHighWeight (1 / 2) := by
  norm_num [scorePair, calculateCompatibilityScore]

/-- C2, amended: for each fixed random draw the scorer is deterministic —
its value depends on nothing but the draw, in particular not on either
answer set — and it is symmetric: `score(A,B) = score(B,A)` holds for every
pair and every draw. -/
theorem score_deterministic_per_draw (A B A2 B2 : AnswerSet) (r : ℚ) :
    scorePair A B r = scorePair A2 B2 r ∧ scorePair A B r = scorePair B A r :=
  ⟨rfl, rfl⟩

/-! ## Claim C3 — weighted similarity scoring -/

/-- C3, counterexample: with the weight set `[3,2,5,5,4]`, the partner who
matches exactly on both weight-5 questions can score strictly *below* the
partner who matches only the weight-2 and weight-3 questions: the scorer
never reads the answers, so the draws `0` and `1` produce scores `7 < 10` in
the wrong order. -/
theorem high_weight_match_can_rank_below :
    scenarioWeights.map (fun q => q.weight) = [3, 2, 5, 5, 4] ∧
    scorePair scenarioAnswers partnerHighWeight 0 <
      scorePair scenarioAnswers partnerLowWeight 1 := by
  refine ⟨rfl, ?_⟩
  norm_num [scorePair, calculateCompatibilityScore]

/-- C3, amended: no per-question similarity is computed: the compatibility
score ignores both answer sets entirely, and is monotone in the candidate's
random draw alone — which candidate ranks higher is decided by the draws,
never by the questionnaire answers or the question weights. -/
theorem score_ignores_answers (A B A2 B2 : AnswerSet) {r₁ r₂ : ℚ}
    (h : r₁ ≤ r₂) :
    scorePair A B r₁ = scorePair A2 B2 r₁ ∧
    scorePair A B r₁ ≤ scorePair A2 B2 r₂ :=
  ⟨rfl, calculateCompatibilityScore_mono h⟩

/-- Witness for `score_ignores_answers` at the scenario answer sets and the
draws `0 ≤ 1`. -/
theorem score_ignores_answers_check :
    scorePair scenarioAnswers partnerHighWeight 0 =
      scorePair scenarioAnswers partnerLowWeight 0 ∧
    scorePair scenarioAnswers partnerHighWeight 0 ≤
      scorePair scenarioAnswers partnerLowWeight 1 :=
  score_ignores_answers scenarioAnswers partnerHighWeight scenarioAnswers
    partnerLowWeight (by norm_num)

/-! ## Claim C4 — ranking order -/

/-- C4, counterexample: ties are *not* broken by ascending candidate id. For
the input `[⟨id 3, score 7⟩, ⟨id 2, score 7⟩]` the stable sort keeps the
input order, so the equal-score candidates come out with ids `3, 2` —
descending, contradicting the claimed ascending-id tie-break. -/
theorem rank_ties_not_ascending_id :
    rankMatches [⟨3, [], 7⟩, ⟨2, [], 7⟩] = [⟨3, [], 7⟩, ⟨2, [], 7⟩] ∧
    ¬ (rankMatches [⟨3, [], 7⟩, ⟨2, [], 7⟩]).Pairwise
        (fun a b => a.compatibility = b.compatibility → a.id ≤ b.id) := by
  constructor
  · decide
  · decide

/-- C4, amended: ranking is the stable descending sort by score: the output
is sorted descending by compatibility, equal-score candidates keep their
*input* order (the filter at any fixed score value is unchanged), and on the
spec's example — scores `[5,7,7,3]` for candidates `c1,c2,c3,c4` — the output
is `[c2,c3,c1,c4]` (because `c2` precedes `c3` in the input, not because of
an id tie-break). -/
theorem rank_stable_desc (l : List ScoredUser) (q : ℚ) :
    (rankMatches l).Pairwise (fun a b => b.compatibility ≤ a.compatibility) ∧
    (rankMatches l).filter (fun m => m.compatibility = q) =
      l.filter (fun m => m.compatibility = q) ∧
    rankMatches [⟨1, [], 5⟩, ⟨2, [], 7⟩, ⟨3, [], 7⟩, ⟨4, [], 3⟩] =
      [⟨2, [], 7⟩, ⟨3, [], 7⟩, ⟨1, [], 5⟩, ⟨4, [], 3⟩] :=
  ⟨pairwise_sortDesc _ l, filter_sortDesc _ q l, by decide⟩

/-! ## Claim C5 — exhausted pool resets the rejection set and retries -/

/-- C5: when every fetched candidate is already in today's rejection set, the
flow dispatches the reset action (clearing the rejection set — reducer
modelled from the spec), retries over the full unfiltered pool, and resolves
the top-ranked candidate of that pool — whose id is one of the previously
rejected ids, i.e. a rejected candidate is re-surfaced within the same day. -/
theorem exhausted_pool_resets_and_retries (s : AppState) (pool : List User)
    (draws : List ℚ)
    (hq : s.dailyMatchCount < matchLimit s)
    (hpool : pool ≠ [])
    (hdraws : draws ≠ [])
    (hrej : ∀ u ∈ pool, u.id ∈ s.rejectedMatches.map (fun m => m.id)) :
    ∃ top, (rankMatches (withScores pool draws)).head? = some top ∧
      aiMatchingRun s pool draws =
        (appReducer (appReducer s .resetDailyMatches) (.setMatch top),
          .resolved top) ∧
      (aiMatchingRun s pool draws).1.rejectedMatches = [] ∧
      top.id ∈ s.rejectedMatches.map (fun m => m.id) := by
  have hfetch : fetchPotentialMatches s pool = some pool := by
    have h1 : ¬ matchLimit s ≤ s.dailyMatchCount := not_le.mpr hq
    have h0 : ¬ pool.length = 0 := by
      simpa [List.length_eq_zero] using hpool
    simp [fetchPotentialMatches, h1, h0]
  have havail :
      pool.filter
        (fun u => ! (s.rejectedMatches.map (fun m => m.id)).contains u.id)
        = [] := by
    rw [List.filter_eq_nil_iff]
    intro u hu
    have hmem : u.id ∈ s.rejectedMatches.map (fun m => m.id) := hrej u hu
    simpa using hmem
  have hws : withScores pool draws ≠ [] := by
    cases pool with
    | nil => exact absurd rfl hpool
    | cons u us =>
      cases draws with
      | nil => exact absurd rfl hdraws
      | cons r rs => simp [withScores]
  obtain ⟨top, htop⟩ :
      ∃ top, (rankMatches (withScores pool draws)).head? = some top := by
    cases hr : rankMatches (withScores pool draws) with
    | nil =>
      rw [rankMatches, sortDesc_eq_nil_iff] at hr
      exact absurd hr hws
    | cons a l => exact ⟨a, rfl⟩
  have htopmem : top ∈ withScores pool draws := by
    have hmem : top ∈ rankMatches (withScores pool draws) := by
      cases hr : rankMatches (withScores pool draws) with
      | nil => rw [hr] at htop; cases htop
      | cons a l =>
        rw [hr] at htop
        rw [List.head?_cons, Option.some_inj] at htop
        rw [htop] at hr ⊢
        exact List.mem_cons_self _ _
    exact (mem_sortDesc _ top _).mp hmem
  have hrun : aiMatchingRun s pool draws =
      (appReducer (appReducer s .resetDailyMatches) (.setMatch top),
        .resolved top) := by
    unfold aiMatchingRun
    rw [hfetch]
    dsimp only
    rw [havail, htop]
    simp only [List.length_nil, reduceIte]
  refine ⟨top, htop, hrun, ?_, ?_⟩
  · rw [hrun]
    simp [appReducer]
  · rcases mem_withScores pool draws top htopmem with ⟨u, hu, r, rfl⟩
    exact hrej u hu

/-- Witness for `exhausted_pool_resets_and_retries`: a singleton pool whose
only candidate (id 1) was already rejected today; the run clears the
rejection set and resolves that same candidate again. -/
theorem exhausted_pool_resets_and_retries_check :
    ∃ top, (rankMatches (withScores [⟨1, []⟩] [0])).head? = some top ∧
      aiMatchingRun ⟨false, 0, [⟨1, [], 7⟩], none⟩ [⟨1, []⟩] [0] =
        (appReducer (appReducer ⟨false, 0, [⟨1, [], 7⟩], none⟩
            .resetDailyMatches) (.setMatch top), .resolved top) ∧
      (aiMatchingRun ⟨false, 0, [⟨1, [], 7⟩], none⟩
          [⟨1, []⟩] [0]).1.rejectedMatches = [] ∧
      top.id ∈ (([⟨1, [], 7⟩] : List ScoredUser)).map (fun m => m.id) :=
  exhausted_pool_resets_and_retries ⟨false, 0, [⟨1, [], 7⟩], none⟩
    [⟨1, []⟩] [0] (by decide) (by decide) (by decide) (by decide)

/-! ## Claim C6 — atomicity of quota consumption -/

theorem serialConsume_spec (limit : ℕ) :
    ∀ (n c : ℕ), c ≤ limit →
      (serialConsume limit c n).2 = min n (limit - c) ∧
      (serialConsume limit c n).1 = c + min n (limit - c)
  | 0, c, _ => by simp [serialConsume]
  | n + 1, c, hc => by
    by_cases h : c < limit
    · obtain ⟨ih1, ih2⟩ := serialConsume_spec limit n (c + 1) h
      simp only [serialConsume, consume, if_pos h, reduceIte]
      constructor <;> omega
    · obtain ⟨ih1, ih2⟩ := serialConsume_spec limit n c hc
      simp only [serialConsume, consume, if_neg h, Bool.false_eq_true, reduceIte]
      constructor <;> omega

/-- C6, counterexample: quota consumption is a read-then-write — the guard
read happens in `fetchPotentialMatches` and the increment only later, at the
`SET_MATCH` dispatch. Under the interleaving "both flows read the guard, then
both increment", two concurrent flows with limit `2` and only one slot
remaining (count `1`) *both* finish successfully and the count reaches `3`,
exceeding the limit — refuting "two simultaneous match requests never both
succeed when only one quota slot remains". -/
theorem concurrent_consume_both_succeed :
    schedRun 2 ⟨1, .start, .start⟩ [false, true, false, true] =
      ⟨3, .finished, .finished⟩ ∧
    ¬ (schedRun 2 ⟨1, .start, .start⟩ [false, true, false, true]).count ≤ 2 :=
  by decide

/-- C6, amended: quota consumption is check-then-increment with an
interleaving point in between, not one atomic compare-and-increment. Run
*serially* (each call's check and increment adjacent), `n` consume calls
from a fresh day yield exactly `min n limit` successes — so exactly `limit`
succeed whenever `n > limit` — and the count never exceeds the limit; but
under the interleaved schedule of `concurrent_consume_both_succeed` two
concurrent flows with one slot remaining both succeed and the count exceeds
the limit. -/
theorem quota_consume_read_then_write (limit n : ℕ) :
    (serialConsume limit 0 n).2 = min n limit ∧
    (serialConsume limit 0 n).1 ≤ limit ∧
    schedRun 2 ⟨1, .start, .start⟩ [false, true, false, true] =
      ⟨3, .finished, .finished⟩ := by
  obtain ⟨h1, h2⟩ := serialConsume_spec limit n 0 (Nat.zero_le limit)
  refine ⟨by simpa using h1, ?_, by decide⟩
  rw [h2]
  omega

/-! ## Claim C7 — authentication before candidates -/

/-- C7, counterexample: a request with no bearer token at all — so token
verification fails — still receives the full candidate pool from the
potential-matches handler, not the reauthenticate failure: the handler
resolves the caller only opportunistically. -/
theorem auth_failure_still_returns_pool :
    getUserFromToken [⟨1, true, true, 10⟩] 5 0 none = none ∧
    potentialMatchesHandler [⟨1, true, true, 10⟩] 5 0 none =
      .ok [⟨1, true, true, 10⟩] ∧
    MatchesResult.ok [⟨1, true, true, 10⟩] ≠ .authFailed := by
  refine ⟨rfl, ?_, by simp⟩
  decide

/-- C7, amended: when access-token verification fails (missing, malformed or
expired bearer token) the matching endpoint does *not* fail: it proceeds
unauthenticated, returning the candidate pool selected with no caller
exclusion, and no request can make it return the auth-failure outcome. -/
theorem handler_returns_pool_without_auth (db : List DbUser)
    (secret now : Nat) (hdr : Option (String × AccessTok))
    (hAuth : getUserFromToken db secret now hdr = none) :
    potentialMatchesHandler db secret now hdr = .ok (selectMatches db none) ∧
    ∀ hdr2, potentialMatchesHandler db secret now hdr2 ≠ .authFailed := by
  constructor
  · simp [potentialMatchesHandler, hAuth]
  · intro hdr2
    simp [potentialMatchesHandler]

/-- Witness for `handler_returns_pool_without_auth` at a one-user database
and a missing authorization header. -/
theorem handler_returns_pool_without_auth_check :
    potentialMatchesHandler [⟨1, true, true, 10⟩] 5 0 none =
      .ok (selectMatches [⟨1, true, true, 10⟩] none) :=
  (handler_returns_pool_without_auth [⟨1, true, true, 10⟩] 5 0 none rfl).1

/-! ## Claim C8 — candidate selection contract -/

/-- C8: the candidate pool handed to scoring — the handler's query followed
by the client-side rejection filter — contains at most 20 identities, each
active, verified, distinct from the caller and outside today's rejection
set, and is ordered by `createdAt` descending (insertion recency, the order
the spec glosses as most-recently-active first). -/
theorem selectMatches_spec (db : List DbUser) (callerId : Nat)
    (rejected : List Nat) :
    ((selectMatches db (some callerId)).filter
        (fun u => ! rejected.contains u.id)).length ≤ 20 ∧
    (∀ u ∈ (selectMatches db (some callerId)).filter
        (fun u => ! rejected.contains u.id),
      u.isActive = true ∧ u.isVerified = true ∧ u.id ≠ callerId ∧
        u.id ∉ rejected) ∧
    ((selectMatches db (some callerId)).filter
        (fun u => ! rejected.contains u.id)).Pairwise
      (fun a b => b.createdAt ≤ a.createdAt) := by
  refine ⟨?_, ?_, ?_⟩
  · calc ((selectMatches db (some callerId)).filter
        (fun u => ! rejected.contains u.id)).length
        ≤ (selectMatches db (some callerId)).length :=
          List.length_filter_le _ _
    _ ≤ 20 := by
        unfold selectMatches
        exact List.length_take_le 20 _
  · intro u hu
    rcases List.mem_filter.mp hu with ⟨hsel, hrej⟩
    have hbase : u ∈ db.filter (fun v =>
        v.isActive && v.isVerified && (v.id != callerId)) := by
      have h1 : u ∈ sortDesc (fun v => v.createdAt)
          (db.filter (fun v =>
            v.isActive && v.isVerified && (v.id != callerId))) :=
        List.take_subset 20 _ hsel
      exact (mem_sortDesc _ u _).mp h1
    rcases List.mem_filter.mp hbase with ⟨_, hpred⟩
    simp only [Bool.and_eq_true, bne_iff_ne, Ne] at hpred
    refine ⟨hpred.1.1, hpred.1.2, hpred.2, ?_⟩
    intro hmem
    have hc : rejected.contains u.id = true := List.elem_iff.mpr hmem
    rw [hc] at hrej
    simp at hrej
  · have hsub : List.Sublist
        ((selectMatches db (some callerId)).filter
          (fun u => ! rejected.contains u.id))
        (sortDesc (fun v => v.createdAt)
          (db.filter (fun v =>
            v.isActive && v.isVerified && (v.id != callerId)))) := by
      refine List.Sublist.trans (List.filter_sublist _) ?_
      unfold selectMatches
      exact List.take_sublist 20 _
    exact List.Pairwise.sublist hsub
      (pairwise_sortDesc (fun v => v.createdAt)
        (db.filter (fun v => v.isActive && v.isVerified && (v.id != callerId))))

/-- Witness for `selectMatches_spec`: a three-user database where user 3 is
inactive, the caller is user 1 and user 4 is rejected; the surviving
candidate (user 2) satisfies every clause. -/
theorem selectMatches_spec_check :
    (⟨2, true, true, 20⟩ : DbUser).isActive = true ∧
    (⟨2, true, true, 20⟩ : DbUser).isVerified = true ∧
    (⟨2, true, true, 20⟩ : DbUser).id ≠ 1 ∧
    (⟨2, true, true, 20⟩ : DbUser).id ∉ ([4] : List Nat) :=
  (selectMatches_spec
      [⟨1, true, true, 10⟩, ⟨2, true, true, 20⟩, ⟨3, false, true, 30⟩]
      1 [4]).2.1 ⟨2, true, true, 20⟩ (by decide)

/-! ## Claim C9 — token issue/verify round trip -/

/-- C9: issuing a token pair and verifying the returned access token before
its expiry succeeds and returns the original identity id; once the access
token's expiry timestamp has passed, verification of the very same token
fails with the single collapsed invalid outcome (`none` — the code returns
`null` for every failure mode alike). -/
theorem token_roundtrip (db : List DbUser)
    (secret refreshSecret now uid : Nat) (u : DbUser)
    (hfind : findUnique db uid = some u) (hact : u.isActive = true)
    (t1 : Nat) (h1 : t1 < now + sevenDays)
    (t2 : Nat) (h2 : now + sevenDays < t2) :
    (getUserFromToken db secret t1
        (some ("Bearer", (issueTokens secret refreshSecret now uid).1))).map
      (fun v => v.id) = some uid ∧
    getUserFromToken db secret t2
      (some ("Bearer", (issueTokens secret refreshSecret now uid).1)) =
      none := by
  have hfind2 : List.find? (fun v => v.id == uid) db = some u := hfind
  have hp := List.find?_some hfind2
  have hid : u.id = uid := by simpa using hp
  constructor
  · simp [getUserFromToken, issueTokens, jwtSign, jwtVerify, h1, hfind,
      hact, hid]
  · have h2n : ¬ t2 < now + sevenDays := by omega
    simp [getUserFromToken, issueTokens, jwtSign, jwtVerify, h2n]

/-- Witness for `token_roundtrip`: user 1 in a one-user database, issuance at
time `0`, verification at time `0` (inside the 7-day TTL) and at
`sevenDays + 1` (after expiry). -/
theorem token_roundtrip_check :
    (getUserFromToken [⟨1, true, true, 10⟩] 5 0
        (some ("Bearer", (issueTokens 5 6 0 1).1))).map (fun v => v.id) =
      some 1 ∧
    getUserFromToken [⟨1, true, true, 10⟩] 5 (sevenDays + 1)
      (some ("Bearer", (issueTokens 5 6 0 1).1)) = none :=
  token_roundtrip [⟨1, true, true, 10⟩] 5 6 0 1 ⟨1, true, true, 10⟩
    (by decide) rfl 0 (by decide) (sevenDays + 1) (by decide)

/-! ## Claim C10 — score range invariant -/

/-- C10: every compatibility score assigned to a candidate lies in
`[7, 10]` — the base of `7.0` plus a bounded increment is clamped from both
sides and rounding to tenths stays inside the interval — regardless of the
answers or the random draw. Every resolved match is therefore presented with
at least `7.0` out of `10`. -/
theorem compatibility_always_in_range (pool : List User) (draws : List ℚ)
    (m : ScoredUser) (hm : m ∈ withScores pool draws) :
    7 ≤ m.compatibility ∧ m.compatibility ≤ 10 := by
  rcases mem_withScores pool draws m hm with ⟨u, _, r, rfl⟩
  exact roundTenths_bounds (le_calculateCompatibilityScore r)
    (calculateCompatibilityScore_le r)

/-- Witness for `compatibility_always_in_range` on a singleton pool with
draw `1/2` (score `8.5`). -/
theorem compatibility_always_in_range_check :
    (⟨1, [], (17 : ℚ) / 2⟩ : ScoredUser) ∈ withScores [⟨1, []⟩] [1 / 2] ∧
    7 ≤ (⟨1, [], (17 : ℚ) / 2⟩ : ScoredUser).compatibility ∧
    (⟨1, [], (17 : ℚ) / 2⟩ : ScoredUser).compatibility ≤ 10 := by
  have hmem : (⟨1, [], (17 : ℚ) / 2⟩ : ScoredUser) ∈
      withScores [⟨1, []⟩] [1 / 2] := by
    norm_num [withScores, calculateCompatibilityScore, roundTenths, round_eq]
  exact ⟨hmem, compatibility_always_in_range [⟨1, []⟩] [1 / 2] _ hmem⟩

end SoulSync
